import Mathlib

set_option maxHeartbeats 1000000

/-!
Verification of the tripit client's authentication subsystem and payload
helpers, shallowly embedded from `src/tripit.ts` and `src/utils.ts`.

The HTTP layer, the HTML parser (cheerio) and node's `crypto` are platform
libraries, not repository code: they are modelled at the granularity the
repository consumes them.  A fetched-and-parsed response is a `Page` record
(status, Location header, the parsed form inputs, the form's action
attribute, the extracted error text, the meta-refresh content and the
script-redirect match); the SHA-256 digest function is an explicit
parameter `sha256fn`; random bytes are supplied by the environment.
Network requests and token-cache writes are recorded in a `Trace`, so that
"no network call" and "nothing cached" are provable statements.
-/

/-! ### Constants from `src/constants.ts` -/

def BASE_URL : String := "https://www.tripit.com"

def API_BASE_URL : String := "https://api.tripit.com"

def REDIRECT_URI : String := "com.tripit://completeAuthorize"

def SCOPES : String := "offline_access email"

/-! ### Association-list model of a JS object

A JS object is a list of key/value pairs with insertion order; `jsObjInsert`
models `obj[k] = v` (overwrite in place when the key exists, append
otherwise) and `lookupStr` models property lookup. -/

def lookupStr {V : Type} : List (String × V) → String → Option V
  | [], _ => none
  | p :: rest, k => if p.1 = k then some p.2 else lookupStr rest k

def jsObjInsert {V : Type} (acc : List (String × V)) (k : String) (v : V) :
    List (String × V) :=
  if (lookupStr acc k).isSome then
    acc.map (fun p => if p.1 = k then (k, v) else p)
  else
    acc ++ [(k, v)]

/-- `orderObjectByKeys` from `src/utils.ts`: rebuild an object by folding over
`orderArray`, copying a key only when the source object has it. -/
def orderObjectByKeys {V : Type} (obj : List (String × V))
    (orderArray : List String) : List (String × V) :=
  orderArray.foldl
    (fun ordered key =>
      match lookupStr obj key with
      | some v => jsObjInsert ordered key v
      | none => ordered)
    []

/-- `TRIP_UPDATE_FIELD_ORDER` from `src/tripit.ts`. -/
def TRIP_UPDATE_FIELD_ORDER : List String :=
  ["primary_location", "TripPurposes", "is_private", "start_date",
   "display_name", "is_expensible", "end_date", "description"]

/-- `LODGING_FIELD_ORDER` from `src/tripit.ts`. -/
def LODGING_FIELD_ORDER : List String :=
  ["uuid", "trip_uuid", "trip_id", "is_client_traveler", "display_name",
   "supplier_name", "supplier_conf_num", "booking_rate", "is_purchased",
   "notes", "total_cost", "StartDateTime", "EndDateTime", "Address"]

/-! ### Byte-level encodings

`toHex` models `Buffer.toString("hex")` (lowercase), `base64Encode` models
`Buffer.toString("base64")`, `utf8Bytes` models the UTF-8 byte view of a
string that `crypto.createHash(...).update(string)` hashes. -/

def hexDigitChar (n : Nat) : Char := "0123456789abcdef".toList.getD n '0'

def byteToHex (b : Nat) : List Char := [hexDigitChar (b / 16), hexDigitChar (b % 16)]

def toHex (bytes : List Nat) : String := String.mk (bytes.flatMap byteToHex)

def hexVal (c : Char) : Nat :=
  if '0' ≤ c ∧ c ≤ '9' then c.toNat - 48
  else if 'a' ≤ c ∧ c ≤ 'f' then c.toNat - 87
  else if 'A' ≤ c ∧ c ≤ 'F' then c.toNat - 55
  else 0

def isHexDigitChar (c : Char) : Bool :=
  ('0' ≤ c && c ≤ '9') || ('a' ≤ c && c ≤ 'f') || ('A' ≤ c && c ≤ 'F')

def hexDecodeChars : List Char → List Nat
  | c1 :: c2 :: rest => (hexVal c1 * 16 + hexVal c2) :: hexDecodeChars rest
  | _ => []

def hexDecode (s : String) : List Nat := hexDecodeChars s.toList

def utf8EncodeCharNat (c : Char) : List Nat :=
  let n := c.toNat
  if n < 128 then [n]
  else if n < 2048 then [192 + n / 64, 128 + n % 64]
  else if n < 65536 then [224 + n / 4096, 128 + (n / 64) % 64, 128 + n % 64]
  else [240 + n / 262144, 128 + (n / 4096) % 64, 128 + (n / 64) % 64, 128 + n % 64]

def utf8Bytes (s : String) : List Nat := s.toList.flatMap utf8EncodeCharNat

def b64Char (n : Nat) : Char :=
  "ABCDEFGHIJKLMNOPQRSTUVWXYZabcdefghijklmnopqrstuvwxyz0123456789+/".toList.getD n 'A'

def b64urlChar (n : Nat) : Char :=
  "ABCDEFGHIJKLMNOPQRSTUVWXYZabcdefghijklmnopqrstuvwxyz0123456789-_".toList.getD n 'A'

def base64Chunks : List Nat → List Char
  | [] => []
  | [b1] => [b64Char (b1 / 4), b64Char (b1 % 4 * 16), '=', '=']
  | [b1, b2] => [b64Char (b1 / 4), b64Char (b1 % 4 * 16 + b2 / 16), b64Char (b2 % 16 * 4), '=']
  | b1 :: b2 :: b3 :: rest =>
      b64Char (b1 / 4) :: b64Char (b1 % 4 * 16 + b2 / 16) ::
      b64Char (b2 % 16 * 4 + b3 / 64) :: b64Char (b3 % 64) :: base64Chunks rest

def base64Encode (bytes : List Nat) : String := String.mk (base64Chunks bytes)

/-- Modelled from the spec: base64url encoding without padding, the encoding
§4.2 requires for `codeChallenge` ("base64url(sha256(codeVerifier)) with =
padding stripped and +/ replaced by -_"). -/
def base64urlChunks : List Nat → List Char
  | [] => []
  | [b1] => [b64urlChar (b1 / 4), b64urlChar (b1 % 4 * 16)]
  | [b1, b2] => [b64urlChar (b1 / 4), b64urlChar (b1 % 4 * 16 + b2 / 16), b64urlChar (b2 % 16 * 4)]
  | b1 :: b2 :: b3 :: rest =>
      b64urlChar (b1 / 4) :: b64urlChar (b1 % 4 * 16 + b2 / 16) ::
      b64urlChar (b2 % 16 * 4 + b3 / 64) :: b64urlChar (b3 % 64) :: base64urlChunks rest

def base64urlUnpadded (bytes : List Nat) : String := String.mk (base64urlChunks bytes)

/-- The character action of `.replace(/\+/g, "-")`. -/
def replacePlusChar (c : Char) : Char := if c = '+' then '-' else c

/-- The character action of `.replace(/\//g, "_")`. -/
def replaceSlashChar (c : Char) : Char := if c = '/' then '_' else c

def replacePlus (s : String) : String := String.mk (s.toList.map replacePlusChar)

def replaceSlash (s : String) : String := String.mk (s.toList.map replaceSlashChar)

/-- Remove the maximal trailing run of padding characters, modelling
`.replace(/=+\x24/, "")`. -/
def stripEqList : List Char → List Char
  | [] => []
  | c :: rest =>
      if c = '=' ∧ stripEqList rest = [] then [] else c :: stripEqList rest

def stripTrailingEq (s : String) : String := String.mk (stripEqList s.toList)

/-- The code-challenge pipeline of `authenticate` (src/tripit.ts:2315-2322):
sha256 digest of the verifier, base64, then `+`→`-`, `/`→`_`, strip `=`. -/
def codeChallengeOf (sha256fn : List Nat → List Nat) (codeVerifier : String) : String :=
  stripTrailingEq (replaceSlash (replacePlus (base64Encode (sha256fn (utf8Bytes codeVerifier)))))

/-! ### Percent encodings and a URL model

`encodeURIComponent`, the `application/x-www-form-urlencoded` serializer of
`URLSearchParams.toString()`, percent-decoding of query parameters, and a
model of WHATWG `new URL(ref, base).href` for the URL shapes this flow
produces (absolute URLs, absolute paths, relative paths, custom schemes). -/

def hexDigitCharUpper (n : Nat) : Char := "0123456789ABCDEF".toList.getD n '0'

def percentEncodeByte (b : Nat) : List Char :=
  ['%', hexDigitCharUpper (b / 16 % 16), hexDigitCharUpper (b % 16)]

def uriUnreserved (c : Char) : Bool :=
  c.isAlphanum || c = '-' || c = '_' || c = '.' || c = '!' || c = '~' ||
  c = '*' || c = '(' || c = ')' || c.toNat = 39

def encodeURIComponent (s : String) : String :=
  String.mk (s.toList.flatMap fun c =>
    if uriUnreserved c then [c] else (utf8EncodeCharNat c).flatMap percentEncodeByte)

def formUrlKeep (c : Char) : Bool :=
  c.isAlphanum || c = '*' || c = '-' || c = '.' || c = '_'

def formEncodeStr (s : String) : String :=
  String.mk (s.toList.flatMap fun c =>
    if c = ' ' then ['+']
    else if formUrlKeep c then [c]
    else (utf8EncodeCharNat c).flatMap percentEncodeByte)

/-- `new URLSearchParams(pairs).toString()`. -/
def formUrlEncode (ps : List (String × String)) : String :=
  String.intercalate "&" (ps.map fun p => formEncodeStr p.1 ++ "=" ++ formEncodeStr p.2)

/-- Split a character list at the first occurrence of `sep` (structural
recursion, so that concrete runs reduce in the kernel). -/
def splitFirstChars (sep : List Char) : List Char → Option (List Char × List Char)
  | [] => none
  | c :: rest =>
    if sep.isPrefixOf (c :: rest) then some ([], (c :: rest).drop sep.length)
    else
      match splitFirstChars sep rest with
      | some pr => some (c :: pr.1, pr.2)
      | none => none

def splitFirst (sep : String) (s : String) : Option (String × String) :=
  match splitFirstChars sep.toList s.toList with
  | none => none
  | some pr => some (String.mk pr.1, String.mk pr.2)

/-- Split a character list on every occurrence of the character `sep`. -/
def splitCharList (sep : Char) : List Char → List (List Char)
  | [] => [[]]
  | c :: rest =>
    if c = sep then [] :: splitCharList sep rest
    else
      match splitCharList sep rest with
      | [] => [[c]]
      | a :: tail => (c :: a) :: tail

def hasScheme (s : String) : Bool := (splitFirst "://" s).isSome

def originOf (url : String) : String :=
  match splitFirst "://" url with
  | none => url
  | some pr =>
      pr.1 ++ "://" ++ String.mk (pr.2.toList.takeWhile fun c => c ≠ '/' && c ≠ '?' && c ≠ '#')

def stripQueryFrag (url : String) : String :=
  String.mk (url.toList.takeWhile fun c => c ≠ '?' && c ≠ '#')

/-- The base URL up to and including the last `/` of its path. -/
def dirOf (url : String) : String :=
  String.mk ((url.toList.reverse.dropWhile fun c => c ≠ '/').reverse)

/-- Models WHATWG `new URL(ref, base).href` for the reference shapes the login
flow produces: an absolute URL (any scheme) wins outright, an absolute path
replaces the base's path, other references are resolved against the base's
directory. -/
def resolveUrl (ref base : String) : String :=
  if hasScheme ref then ref
  else if ['/'].isPrefixOf ref.toList then originOf base ++ ref
  else if ['?'].isPrefixOf ref.toList then stripQueryFrag base ++ ref
  else if ref = "" then stripQueryFrag base
  else dirOf (stripQueryFrag base) ++ ref

def queryString (url : String) : String :=
  match splitFirst "?" url with
  | none => ""
  | some pr => String.mk (pr.2.toList.takeWhile fun c => c ≠ '#')

def percentDecodeChars : List Char → List Char
  | [] => []
  | '%' :: c1 :: c2 :: rest =>
      if isHexDigitChar c1 && isHexDigitChar c2 then
        Char.ofNat (hexVal c1 * 16 + hexVal c2) :: percentDecodeChars rest
      else
        '%' :: percentDecodeChars (c1 :: c2 :: rest)
  | '+' :: rest => ' ' :: percentDecodeChars rest
  | c :: rest => c :: percentDecodeChars rest

def percentDecode (s : String) : String := String.mk (percentDecodeChars s.toList)

def parseQueryPair (kv : String) : Option (String × String) :=
  if kv = "" then none
  else
    match splitFirst "=" kv with
    | none => some (percentDecode kv, "")
    | some pr => some (percentDecode pr.1, percentDecode pr.2)

/-- `new URL(url).searchParams.get(key)`: first matching pair, decoded. -/
def searchParamGet (url key : String) : Option String :=
  lookupStr
    (((splitCharList '&' (queryString url).toList).map String.mk).filterMap parseQueryPair)
    key

/-! ### Data model (`src/types.ts`) and the traced effect monad -/

structure CachedToken where
  access_token : String
  expires_in : Int
  token_type : String
  scope : String
  expiresAt : Int
deriving DecidableEq

structure TokenJson where
  access_token : Option String
  expires_in : Int
  token_type : String
  scope : String
deriving DecidableEq

structure TripItConfig where
  clientId : String
  clientSecret : String
  username : String
  password : String
deriving DecidableEq

/-- One `<input>` of the login form as cheerio reports it: the `name` and
`value` attributes, each possibly absent. -/
structure FormInput where
  name : Option String
  value : Option String
deriving DecidableEq

/-- A fetched response, at the granularity the code consumes it: HTTP status,
`Location` header, and the pieces cheerio extracts from the body (the form
inputs, the form's `action` attribute, the `.error-message`/`.alert-error`
text, the meta-refresh `content`, and the `window.location` script match). -/
structure Page where
  status : Nat
  location : Option String
  inputs : List FormInput
  formAction : Option String
  errorText : String
  metaContent : Option String
  scriptRedirect : Option String
deriving DecidableEq

inductive NetCall where
  | get : String → NetCall
  | post : String → String → NetCall
  | tokenPost : String → String → NetCall
deriving DecidableEq

def isTokenPost : NetCall → Bool
  | NetCall.tokenPost _ _ => true
  | _ => false

/-- Observable effects of one `authenticate()` run: network requests issued
and tokens written to the cache file. -/
structure Trace where
  calls : List NetCall
  writes : List CachedToken
deriving DecidableEq

def addCall (t : Trace) (c : NetCall) : Trace := { t with calls := t.calls ++ [c] }

def addWrite (t : Trace) (w : CachedToken) : Trace := { t with writes := t.writes ++ [w] }

/-- Fallible, trace-recording computations: the shallow embedding of the
async/throwing TypeScript functions. -/
def M (α : Type) : Type := Trace → Except String α × Trace

def M.pure {α : Type} (a : α) : M α := fun t => (Except.ok a, t)

def M.bind {α β : Type} (x : M α) (f : α → M β) : M β := fun t =>
  match x t with
  | (Except.ok a, t1) => f a t1
  | (Except.error e, t1) => (Except.error e, t1)

def M.throw {α : Type} (e : String) : M α := fun t => (Except.error e, t)

def M.call (c : NetCall) : M Unit := fun t => (Except.ok (), addCall t c)

def M.write (w : CachedToken) : M Unit := fun t => (Except.ok (), addWrite t w)

/-- The environment one `authenticate()` run interacts with: the cached token
(if the cache file holds one), the clock, the digest function, the random
bytes `crypto.randomBytes` returns, and the server's responses. -/
structure AuthEnv where
  cached : Option CachedToken
  now : Int
  sha256fn : List Nat → List Nat
  codeVerifierBytes : List Nat
  stateBytes : List Nat
  pages : String → Page
  loginResponse : Page
  tokenStatus : Nat
  tokenBody : String
  tokenJson : TokenJson

/-- JS falsiness of a nullable string (`undefined`, `null` and `""`). -/
def jsFalsyStr : Option String → Bool
  | none => true
  | some s => s == ""

def hasFormInput (p : Page) (nm : String) : Bool :=
  p.inputs.any fun i => i.name == some nm

/-! ### The authentication flow (`src/tripit.ts:2143-2369`) -/

/-- The loop body of `followRedirects`: up to `fuel` requests; 302/303 with a
non-falsy `Location` header (`if (!location) throw`, src/tripit.ts:2181, so an
absent or empty header is fatal) repeats at the resolved URL, anything else is
parsed for a form holding both a `username` and a `password` input. -/
def followRedirectsGo (pages : String → Page) : Nat → String → M (Page × String)
  | 0, _ => M.throw "Too many redirects while getting login form"
  | n + 1, currentUrl =>
    M.bind (M.call (NetCall.get currentUrl)) fun _ =>
    let res := pages currentUrl
    if res.status = 302 ∨ res.status = 303 then
      if jsFalsyStr res.location = true then
        M.throw "Redirect without location header"
      else
        followRedirectsGo pages n (resolveUrl (res.location.getD "") currentUrl)
    else
      if hasFormInput res "username" = false ∨ hasFormInput res "password" = false then
        M.throw "Login form not found"
      else
        M.pure (res, currentUrl)

/-- `followRedirects` (src/tripit.ts:2167-2197): the `for (let i = 0; i < 5; ...)`
loop, returning the login page (standing for its html) and its URL. -/
def followRedirects (pages : String → Page) (url : String) : M (Page × String) :=
  followRedirectsGo pages 5 url

/-- The `$("form input").each(...)` collection loop of `submitLogin`: named
inputs in document order, `value` attribute defaulted to `""`. -/
def collectInputs (inputs : List FormInput) : List (String × String) :=
  inputs.foldl
    (fun acc i =>
      match i.name with
      | some n => if n = "" then acc else jsObjInsert acc n (i.value.getD "")
      | none => acc)
    []

/-- The submitted field set: collected inputs with `username` and `password`
overwritten by the credentials. -/
def buildSubmitData (inputs : List FormInput) (config : TripItConfig) :
    List (String × String) :=
  jsObjInsert (jsObjInsert (collectInputs inputs) "username" config.username)
    "password" config.password

/-- The meta-refresh target: `content.match(/URL=(.+)\x24/)?.[1]`, the text
after the first `URL=` when nonempty. -/
def metaUrlOf : Option String → Option String
  | none => none
  | some m =>
    match splitFirst "URL=" m with
    | none => none
    | some pr => if pr.2 = "" then none else some pr.2

/-- `submitLogin` (src/tripit.ts:2199-2271): POST the filled form to the
form's `action` resolved against the page URL, then find the post-login
redirect target (header, meta refresh or script), or fail. -/
def submitLogin (env : AuthEnv) (config : TripItConfig) (page : Page)
    (formAction : String) : M String :=
  let submitData := buildSubmitData page.inputs config
  if jsFalsyStr page.formAction then M.throw "No form action URL found"
  else
    let finalUrl := resolveUrl (page.formAction.getD "") formAction
    M.bind (M.call (NetCall.post finalUrl (formUrlEncode submitData))) fun _ =>
    let res := env.loginResponse
    if res.status = 403 then M.throw "Login failed (403)"
    else if res.status = 302 ∨ res.status = 303 then
      if jsFalsyStr res.location = true then M.throw "No redirect location after login"
      else M.pure (res.location.getD "")
    else if res.status = 200 then
      if res.errorText ≠ "" then M.throw ("Login failed: " ++ res.errorText)
      else
        match metaUrlOf res.metaContent with
        | some u => M.pure u
        | none =>
          match res.scriptRedirect with
          | some u => M.pure u
          | none => M.throw "Could not find redirect URL in login response"
    else M.throw ("Unexpected login response status: " ++ toString res.status)

def tokenRequestBody (config : TripItConfig) (code codeVerifier : String) : String :=
  formUrlEncode
    [("grant_type", "authorization_code"), ("code", code),
     ("redirect_uri", REDIRECT_URI), ("client_id", config.clientId),
     ("code_verifier", codeVerifier)]

/-- `exchangeCodeForToken` (src/tripit.ts:2273-2298): one POST to the token
endpoint; non-`res.ok` (outside 200-299) is fatal with status and body in the
message. -/
def exchangeCodeForToken (env : AuthEnv) (config : TripItConfig)
    (code codeVerifier : String) : M TokenJson :=
  M.bind (M.call (NetCall.tokenPost (API_BASE_URL ++ "/oauth2/token")
      (tokenRequestBody config code codeVerifier))) fun _ =>
  if 200 ≤ env.tokenStatus ∧ env.tokenStatus ≤ 299 then M.pure env.tokenJson
  else M.throw ("Token exchange failed (" ++ toString env.tokenStatus ++ "): " ++ env.tokenBody)

/-- The record `cacheToken` (src/tripit.ts:2154-2165) writes:
`expiresAt = Date.now() + (expires_in - 30) * 1000`. -/
def mkCachedToken (now : Int) (tok : TokenJson) : CachedToken :=
  { access_token := tok.access_token.getD "", expires_in := tok.expires_in,
    token_type := tok.token_type, scope := tok.scope,
    expiresAt := now + (tok.expires_in - 30) * 1000 }

def cacheToken (now : Int) (tok : TokenJson) : M Unit :=
  M.write (mkCachedToken now tok)

def codeVerifierOf (env : AuthEnv) : String := toHex env.codeVerifierBytes

def stateOf (env : AuthEnv) : String := toHex env.stateBytes

def codeChallengeEnv (env : AuthEnv) : String :=
  codeChallengeOf env.sha256fn (codeVerifierOf env)

/-- The authorize URL built in `authenticate` (src/tripit.ts:2325-2335). -/
def authUrlOf (env : AuthEnv) (config : TripItConfig) : String :=
  BASE_URL ++ "/auth/oauth2/authorize?" ++
  "client_id=" ++ encodeURIComponent config.clientId ++
  "&response_type=code" ++
  "&redirect_uri=" ++ encodeURIComponent REDIRECT_URI ++
  "&scope=" ++ encodeURIComponent SCOPES ++
  "&state=" ++ encodeURIComponent (stateOf env) ++
  "&code_challenge=" ++ encodeURIComponent (codeChallengeEnv env) ++
  "&code_challenge_method=S256" ++
  "&response_mode=query" ++
  "&action=sign_in"

/-- The tail of `authenticate` after `submitLogin` (src/tripit.ts:2348-2368):
validate `state`, extract `code`, exchange it, require `access_token`, cache
and return it. -/
def afterLogin (env : AuthEnv) (config : TripItConfig) (redirectUrl : String) : M String :=
  let parsedUrl := resolveUrl redirectUrl "http://localhost"
  if searchParamGet parsedUrl "state" ≠ some (stateOf env) then
    M.throw "OAuth state mismatch"
  else
    let codeOpt := searchParamGet parsedUrl "code"
    if jsFalsyStr codeOpt then M.throw "Authorization code not found in redirect"
    else
      M.bind (exchangeCodeForToken env config (codeOpt.getD "") (codeVerifierOf env))
        fun tokenResponse =>
      if jsFalsyStr tokenResponse.access_token then M.throw "No access_token in response"
      else
        M.bind (cacheToken env.now tokenResponse) fun _ =>
        M.pure (tokenResponse.access_token.getD "")

/-- The cache-miss path of `authenticate`: warm-up GET, PKCE material, the
authorize URL, redirect chasing, login submission, then `afterLogin`. -/
def authenticateFull (env : AuthEnv) (config : TripItConfig) : M String :=
  M.bind (M.call (NetCall.get (BASE_URL ++ "/home"))) fun _ =>
  M.bind (followRedirects env.pages (authUrlOf env config)) fun pr =>
  M.bind (submitLogin env config pr.1 pr.2) fun redirectUrl =>
  afterLogin env config redirectUrl

/-- `authenticate` (src/tripit.ts:2300-2369): return the cached token while
`cached.expiresAt > Date.now()`, otherwise run the full flow. -/
def authenticate (env : AuthEnv) (config : TripItConfig) : M String :=
  match env.cached with
  | some c => if c.expiresAt > env.now then M.pure c.access_token else authenticateFull env config
  | none => authenticateFull env config

/-! ### Lemmas: the base64 pipeline is unpadded base64url -/

theorem replRepl_b64Char_lt :
    ∀ n < 64, replaceSlashChar (replacePlusChar (b64Char n)) = b64urlChar n := by
  decide

theorem replRepl_b64Char (n : Nat) :
    replaceSlashChar (replacePlusChar (b64Char n)) = b64urlChar n := by
  by_cases h : n < 64
  · exact replRepl_b64Char_lt n h
  · have h64 : (64 : Nat) ≤ n := Nat.le_of_not_lt h
    have hlen1 :
        ("ABCDEFGHIJKLMNOPQRSTUVWXYZabcdefghijklmnopqrstuvwxyz0123456789+/".toList).length ≤ n := by
      simpa using h64
    have hlen2 :
        ("ABCDEFGHIJKLMNOPQRSTUVWXYZabcdefghijklmnopqrstuvwxyz0123456789-_".toList).length ≤ n := by
      simpa using h64
    rw [b64Char, b64urlChar, List.getD_eq_default _ _ hlen1, List.getD_eq_default _ _ hlen2]
    decide

theorem b64urlChar_ne_pad_lt : ∀ n < 64, b64urlChar n ≠ '=' := by
  decide

theorem b64urlChar_ne_pad (n : Nat) : b64urlChar n ≠ '=' := by
  by_cases h : n < 64
  · exact b64urlChar_ne_pad_lt n h
  · have h64 : (64 : Nat) ≤ n := Nat.le_of_not_lt h
    have hlen :
        ("ABCDEFGHIJKLMNOPQRSTUVWXYZabcdefghijklmnopqrstuvwxyz0123456789-_".toList).length ≤ n := by
      simpa using h64
    rw [b64urlChar, List.getD_eq_default _ _ hlen]
    decide

theorem stripEqList_cons_ne (x : Char) (l : List Char) (hx : x ≠ '=') :
    stripEqList (x :: l) = x :: stripEqList l := by
  show (if x = '=' ∧ stripEqList l = [] then [] else x :: stripEqList l) = x :: stripEqList l
  rw [if_neg]
  intro hc
  exact hx hc.1

theorem pipelineChunks :
    ∀ bs : List Nat,
      stripEqList ((base64Chunks bs).map fun c => replaceSlashChar (replacePlusChar c)) =
        base64urlChunks bs
  | [] => by simp [base64Chunks, base64urlChunks, stripEqList]
  | [b1] => by
    show stripEqList
        [replaceSlashChar (replacePlusChar (b64Char (b1 / 4))),
         replaceSlashChar (replacePlusChar (b64Char (b1 % 4 * 16))),
         replaceSlashChar (replacePlusChar '='),
         replaceSlashChar (replacePlusChar '=')] = _
    rw [replRepl_b64Char, replRepl_b64Char]
    rw [show replaceSlashChar (replacePlusChar '=') = '=' from rfl]
    rw [stripEqList_cons_ne _ _ (b64urlChar_ne_pad _),
        stripEqList_cons_ne _ _ (b64urlChar_ne_pad _)]
    rfl
  | [b1, b2] => by
    show stripEqList
        [replaceSlashChar (replacePlusChar (b64Char (b1 / 4))),
         replaceSlashChar (replacePlusChar (b64Char (b1 % 4 * 16 + b2 / 16))),
         replaceSlashChar (replacePlusChar (b64Char (b2 % 16 * 4))),
         replaceSlashChar (replacePlusChar '=')] = _
    rw [replRepl_b64Char, replRepl_b64Char, replRepl_b64Char]
    rw [stripEqList_cons_ne _ _ (b64urlChar_ne_pad _),
        stripEqList_cons_ne _ _ (b64urlChar_ne_pad _),
        stripEqList_cons_ne _ _ (b64urlChar_ne_pad _)]
    rfl
  | b1 :: b2 :: b3 :: rest => by
    show stripEqList
        (replaceSlashChar (replacePlusChar (b64Char (b1 / 4))) ::
         replaceSlashChar (replacePlusChar (b64Char (b1 % 4 * 16 + b2 / 16))) ::
         replaceSlashChar (replacePlusChar (b64Char (b2 % 16 * 4 + b3 / 64))) ::
         replaceSlashChar (replacePlusChar (b64Char (b3 % 64))) ::
         (base64Chunks rest).map fun c => replaceSlashChar (replacePlusChar c)) = _
    rw [replRepl_b64Char, replRepl_b64Char, replRepl_b64Char, replRepl_b64Char]
    rw [stripEqList_cons_ne _ _ (b64urlChar_ne_pad _),
        stripEqList_cons_ne _ _ (b64urlChar_ne_pad _),
        stripEqList_cons_ne _ _ (b64urlChar_ne_pad _),
        stripEqList_cons_ne _ _ (b64urlChar_ne_pad _)]
    rw [pipelineChunks rest]
    rfl

theorem pipeline_eq_base64url (bs : List Nat) :
    stripTrailingEq (replaceSlash (replacePlus (base64Encode bs))) = base64urlUnpadded bs := by
  show String.mk (stripEqList (String.mk ((String.mk
      ((String.mk (base64Chunks bs)).toList.map replacePlusChar)).toList.map
        replaceSlashChar)).toList) = _
  rw [show ∀ l : List Char, (String.mk l).toList = l from fun _ => rfl]
  rw [show ∀ l : List Char, (String.mk l).toList = l from fun _ => rfl]
  rw [show ∀ l : List Char, (String.mk l).toList = l from fun _ => rfl]
  rw [List.map_map]
  rw [show ((base64Chunks bs).map (replaceSlashChar ∘ replacePlusChar)) =
        ((base64Chunks bs).map fun c => replaceSlashChar (replacePlusChar c)) from rfl]
  rw [pipelineChunks bs]
  rfl

/-! ### Lemmas: the hex verifier keeps all 32 bytes -/

theorem toHex_chars_length :
    ∀ bytes : List Nat, (bytes.flatMap byteToHex).length = 2 * bytes.length
  | [] => by simp
  | b :: rest => by
    simp [byteToHex, toHex_chars_length rest]
    omega

theorem hexVal_hexDigitChar : ∀ n < 16, hexVal (hexDigitChar n) = n := by
  decide

theorem hexDecode_toHex_chars :
    ∀ bytes : List Nat, (∀ b ∈ bytes, b < 256) →
      hexDecodeChars (bytes.flatMap byteToHex) = bytes
  | [], _ => rfl
  | b :: rest, h => by
    have hb : b < 256 := h b (List.mem_cons_self b rest)
    have hrest : ∀ x ∈ rest, x < 256 := fun x hx => h x (List.mem_cons_of_mem b hx)
    show hexDecodeChars
        (hexDigitChar (b / 16) :: hexDigitChar (b % 16) :: rest.flatMap byteToHex) = b :: rest
    show (hexVal (hexDigitChar (b / 16)) * 16 + hexVal (hexDigitChar (b % 16))) ::
        hexDecodeChars (rest.flatMap byteToHex) = b :: rest
    rw [hexVal_hexDigitChar (b / 16) (by omega), hexVal_hexDigitChar (b % 16) (by omega),
        hexDecode_toHex_chars rest hrest]
    congr 1
    omega

theorem uriUnreserved_b64urlChar_lt : ∀ n < 64, uriUnreserved (b64urlChar n) = true := by
  decide

theorem uriUnreserved_b64urlChar (n : Nat) : uriUnreserved (b64urlChar n) = true := by
  by_cases h : n < 64
  · exact uriUnreserved_b64urlChar_lt n h
  · have h64 : (64 : Nat) ≤ n := Nat.le_of_not_lt h
    have hlen :
        ("ABCDEFGHIJKLMNOPQRSTUVWXYZabcdefghijklmnopqrstuvwxyz0123456789-_".toList).length ≤ n := by
      simpa using h64
    rw [b64urlChar, List.getD_eq_default _ _ hlen]
    decide

theorem b64urlChunks_unreserved :
    ∀ bs : List Nat, ∀ c ∈ base64urlChunks bs, uriUnreserved c = true
  | [], c, hc => by simp [base64urlChunks] at hc
  | [b1], c, hc => by
    simp only [base64urlChunks, List.mem_cons, List.not_mem_nil, or_false] at hc
    rcases hc with h | h <;> (subst h; exact uriUnreserved_b64urlChar _)
  | [b1, b2], c, hc => by
    simp only [base64urlChunks, List.mem_cons, List.not_mem_nil, or_false] at hc
    rcases hc with h | h | h <;> (subst h; exact uriUnreserved_b64urlChar _)
  | b1 :: b2 :: b3 :: rest, c, hc => by
    simp only [base64urlChunks, List.mem_cons] at hc
    rcases hc with h | h | h | h | h
    · subst h; exact uriUnreserved_b64urlChar _
    · subst h; exact uriUnreserved_b64urlChar _
    · subst h; exact uriUnreserved_b64urlChar _
    · subst h; exact uriUnreserved_b64urlChar _
    · exact b64urlChunks_unreserved rest c h

theorem encodeURIComponent_unreserved_list (l : List Char)
    (h : ∀ c ∈ l, uriUnreserved c = true) :
    (l.flatMap fun c =>
      if uriUnreserved c then [c] else (utf8EncodeCharNat c).flatMap percentEncodeByte) = l := by
  induction l with
  | nil => rfl
  | cons x xs ih =>
    have hx : uriUnreserved x = true := h x (List.mem_cons_self x xs)
    have hxs : ∀ c ∈ xs, uriUnreserved c = true := fun c hc => h c (List.mem_cons_of_mem x hc)
    simp [List.flatMap_cons, hx, ih hxs]

/-- The authorize URL's challenge is kept verbatim by `encodeURIComponent`. -/
theorem encodeURIComponent_b64url (bs : List Nat) :
    encodeURIComponent (base64urlUnpadded bs) = base64urlUnpadded bs := by
  show String.mk ((String.mk (base64urlChunks bs)).toList.flatMap _) = _
  rw [show (String.mk (base64urlChunks bs)).toList = base64urlChunks bs from rfl]
  rw [encodeURIComponent_unreserved_list _ (b64urlChunks_unreserved bs)]
  rfl

/-- C3: for every generated code verifier, the code challenge placed in the
authorize URL equals the SHA-256 hash of the verifier encoded in unpadded
base64url (base64 with `=` stripped and `+`/`/` replaced by `-`/`_`), and the
verifier (64 lowercase hex characters) encodes the full 32 random bytes:
they are recovered exactly by hex-decoding. -/
theorem C3_pkce_challenge (env : AuthEnv) (config : TripItConfig)
    (hlen : env.codeVerifierBytes.length = 32)
    (hb : ∀ b ∈ env.codeVerifierBytes, b < 256) :
    codeChallengeEnv env = base64urlUnpadded (env.sha256fn (utf8Bytes (codeVerifierOf env)))
    ∧ (codeVerifierOf env).length = 64
    ∧ hexDecode (codeVerifierOf env) = env.codeVerifierBytes
    ∧ authUrlOf env config =
        BASE_URL ++ "/auth/oauth2/authorize?" ++
        "client_id=" ++ encodeURIComponent config.clientId ++
        "&response_type=code" ++
        "&redirect_uri=" ++ encodeURIComponent REDIRECT_URI ++
        "&scope=" ++ encodeURIComponent SCOPES ++
        "&state=" ++ encodeURIComponent (stateOf env) ++
        "&code_challenge=" ++ base64urlUnpadded (env.sha256fn (utf8Bytes (codeVerifierOf env))) ++
        "&code_challenge_method=S256" ++
        "&response_mode=query" ++
        "&action=sign_in" := by
  have hch : codeChallengeEnv env =
      base64urlUnpadded (env.sha256fn (utf8Bytes (codeVerifierOf env))) :=
    pipeline_eq_base64url _
  refine ⟨hch, ?_, ?_, ?_⟩
  · show (env.codeVerifierBytes.flatMap byteToHex).length = 64
    rw [toHex_chars_length, hlen]
  · show hexDecodeChars (env.codeVerifierBytes.flatMap byteToHex) = env.codeVerifierBytes
    exact hexDecode_toHex_chars env.codeVerifierBytes hb
  · rw [authUrlOf, hch, encodeURIComponent_b64url]

def cfgW : TripItConfig := ⟨"cid", "csec", "user1", "pass1"⟩

def loginFormPageW : Page :=
  { status := 200, location := none,
    inputs := [⟨some "csrf_token", some "abc123"⟩, ⟨some "username", some ""⟩,
               ⟨some "password", some ""⟩],
    formAction := some "/login", errorText := "", metaContent := none,
    scriptRedirect := none }

def envBaseW : AuthEnv :=
  { cached := none, now := 0, sha256fn := fun l => l, codeVerifierBytes := [],
    stateBytes := [], pages := fun _ => loginFormPageW,
    loginResponse :=
      { status := 302, location := some "com.test://done?state=&code=abc",
        inputs := [], formAction := none, errorText := "", metaContent := none,
        scriptRedirect := none },
    tokenStatus := 200, tokenBody := "",
    tokenJson := ⟨some "tok", 3600, "Bearer", "s"⟩ }

def envC3 : AuthEnv := { envBaseW with codeVerifierBytes := List.range 32 }

theorem C3_pkce_challenge_witness :
    codeChallengeEnv envC3 =
      base64urlUnpadded (envC3.sha256fn (utf8Bytes (codeVerifierOf envC3)))
    ∧ (codeVerifierOf envC3).length = 64
    ∧ hexDecode (codeVerifierOf envC3) = envC3.codeVerifierBytes := by
  have h := C3_pkce_challenge envC3 cfgW (by decide) (by decide)
  exact ⟨h.1, h.2.1, h.2.2.1⟩

/-! ### Lemmas: `orderObjectByKeys` -/

theorem lookupStr_append {V : Type} (l1 l2 : List (String × V)) (k : String)
    (h : lookupStr l1 k = none) : lookupStr (l1 ++ l2) k = lookupStr l2 k := by
  induction l1 with
  | nil => rfl
  | cons p rest ih =>
    by_cases hp : p.1 = k
    · rw [show lookupStr (p :: rest) k = if p.1 = k then some p.2 else lookupStr rest k from rfl,
        if_pos hp] at h
      exact absurd h (by simp)
    · rw [show (p :: rest) ++ l2 = p :: (rest ++ l2) from rfl]
      rw [show lookupStr (p :: (rest ++ l2)) k
            = if p.1 = k then some p.2 else lookupStr (rest ++ l2) k from rfl, if_neg hp]
      rw [show lookupStr (p :: rest) k = if p.1 = k then some p.2 else lookupStr rest k from rfl,
        if_neg hp] at h
      exact ih h

theorem lookupStr_singleton_ne {V : Type} (a k : String) (v : V) (h : a ≠ k) :
    lookupStr [(a, v)] k = none := by
  rw [show lookupStr [(a, v)] k = if a = k then some v else none from rfl, if_neg h]

theorem orderFold_char {V : Type} (obj : List (String × V)) :
    ∀ (order : List String) (acc : List (String × V)),
      order.Nodup → (∀ k ∈ order, lookupStr acc k = none) →
      order.foldl
          (fun ordered key =>
            match lookupStr obj key with
            | some v => jsObjInsert ordered key v
            | none => ordered)
          acc
        = acc ++ order.filterMap fun k => (lookupStr obj k).map fun v => (k, v)
  | [], acc, _, _ => by simp
  | key :: rest, acc, hnd, hacc => by
    have hkey : lookupStr acc key = none := hacc key (List.mem_cons_self key rest)
    have hndr : rest.Nodup := hnd.of_cons
    have hknr : key ∉ rest := (List.nodup_cons.mp hnd).1
    rw [List.foldl_cons]
    cases hk : lookupStr obj key with
    | none =>
      rw [orderFold_char obj rest acc hndr
          (fun k hkm => hacc k (List.mem_cons_of_mem key hkm))]
      simp [hk]
    | some v =>
      have hins : jsObjInsert acc key v = acc ++ [(key, v)] := by
        rw [jsObjInsert, if_neg]
        rw [hkey]
        simp
      show List.foldl
          (fun ordered key =>
            match lookupStr obj key with
            | some v2 => jsObjInsert ordered key v2
            | none => ordered)
          (jsObjInsert acc key v) rest
        = acc ++ List.filterMap (fun k => Option.map (fun v2 => (k, v2)) (lookupStr obj k))
            (key :: rest)
      rw [hins]
      rw [orderFold_char obj rest (acc ++ [(key, v)]) hndr
          (fun k hkm => by
            rw [lookupStr_append _ _ _ (hacc k (List.mem_cons_of_mem key hkm))]
            exact lookupStr_singleton_ne key k v (fun he => hknr (he ▸ hkm)))]
      rw [List.append_assoc]
      simp [hk]

theorem orderObjectByKeys_char {V : Type} (obj : List (String × V))
    (order : List String) (h : order.Nodup) :
    orderObjectByKeys obj order
      = order.filterMap fun k => (lookupStr obj k).map fun v => (k, v) := by
  rw [orderObjectByKeys, orderFold_char obj order [] h (fun _ _ => rfl)]
  simp

theorem lookupStr_filterMap_not_mem {V : Type} (obj : List (String × V)) :
    ∀ (order : List String) (k : String), k ∉ order →
      lookupStr (order.filterMap fun k2 => (lookupStr obj k2).map fun v => (k2, v)) k = none
  | [], _, _ => rfl
  | a :: rest, k, hk => by
    have ha : a ≠ k := fun he => hk (he ▸ List.mem_cons_self a rest)
    have hr : k ∉ rest := fun hm => hk (List.mem_cons_of_mem a hm)
    cases hobj : lookupStr obj a with
    | none => simp only [List.filterMap_cons, hobj, Option.map_none']
              exact lookupStr_filterMap_not_mem obj rest k hr
    | some v =>
      simp only [List.filterMap_cons, hobj, Option.map_some']
      rw [show lookupStr ((a, v) :: (rest.filterMap fun k2 =>
            (lookupStr obj k2).map fun v2 => (k2, v2))) k
          = if a = k then some v else lookupStr (rest.filterMap fun k2 =>
            (lookupStr obj k2).map fun v2 => (k2, v2)) k from rfl, if_neg ha]
      exact lookupStr_filterMap_not_mem obj rest k hr

/-- C10: for every object and duplicate-free key-order list,
`orderObjectByKeys` returns exactly the input's keys that appear in the order
list, in the order list's sequence, each with its original value; every key
absent from the order list is dropped — in particular the trip and lodging
update payloads contain no field outside `TRIP_UPDATE_FIELD_ORDER` /
`LODGING_FIELD_ORDER`. -/
theorem C10_orderObjectByKeys {V : Type} (obj : List (String × V))
    (order : List String) (h : order.Nodup) :
    orderObjectByKeys obj order
      = (order.filterMap fun k => (lookupStr obj k).map fun v => (k, v))
    ∧ (∀ k, k ∉ order → lookupStr (orderObjectByKeys obj order) k = none)
    ∧ (∀ k, k ∉ TRIP_UPDATE_FIELD_ORDER →
        lookupStr (orderObjectByKeys obj TRIP_UPDATE_FIELD_ORDER) k = none)
    ∧ (∀ k, k ∉ LODGING_FIELD_ORDER →
        lookupStr (orderObjectByKeys obj LODGING_FIELD_ORDER) k = none) := by
  have htrip : TRIP_UPDATE_FIELD_ORDER.Nodup := by decide
  have hlodg : LODGING_FIELD_ORDER.Nodup := by decide
  refine ⟨orderObjectByKeys_char obj order h, ?_, ?_, ?_⟩
  · intro k hk
    rw [orderObjectByKeys_char obj order h]
    exact lookupStr_filterMap_not_mem obj order k hk
  · intro k hk
    rw [orderObjectByKeys_char obj TRIP_UPDATE_FIELD_ORDER htrip]
    exact lookupStr_filterMap_not_mem obj TRIP_UPDATE_FIELD_ORDER k hk
  · intro k hk
    rw [orderObjectByKeys_char obj LODGING_FIELD_ORDER hlodg]
    exact lookupStr_filterMap_not_mem obj LODGING_FIELD_ORDER k hk

theorem C10_orderObjectByKeys_witness :
    orderObjectByKeys [("end_date", 5), ("bogus", 9), ("primary_location", 1)]
        TRIP_UPDATE_FIELD_ORDER
      = [("primary_location", 1), ("end_date", 5)]
    ∧ lookupStr
        (orderObjectByKeys [("end_date", 5), ("bogus", 9), ("primary_location", 1)]
          TRIP_UPDATE_FIELD_ORDER) "bogus" = none := by
  have h := C10_orderObjectByKeys
    [("end_date", 5), ("bogus", 9), ("primary_location", 1)]
    TRIP_UPDATE_FIELD_ORDER (by decide)
  refine ⟨?_, h.2.2.1 "bogus" (by decide)⟩
  rw [h.1]
  decide

/-! ### Lemmas: `jsObjInsert` lookups and the submitted field set -/

theorem lookupStr_cons {V : Type} (p : String × V) (rest : List (String × V)) (k : String) :
    lookupStr (p :: rest) k = if p.1 = k then some p.2 else lookupStr rest k := rfl

theorem lookupStr_append_full {V : Type} (l1 l2 : List (String × V)) (k : String) :
    lookupStr (l1 ++ l2) k =
      (match lookupStr l1 k with
       | some v => some v
       | none => lookupStr l2 k) := by
  induction l1 with
  | nil => rfl
  | cons p rest ih =>
    rw [List.cons_append, lookupStr_cons, lookupStr_cons]
    by_cases hp : p.1 = k
    · rw [if_pos hp, if_pos hp]
    · rw [if_neg hp, if_neg hp, ih]

theorem lookupStr_map_overwrite {V : Type} (k : String) (v : V) :
    ∀ acc : List (String × V), (lookupStr acc k).isSome = true →
      lookupStr (acc.map fun p => if p.1 = k then (k, v) else p) k = some v
  | [], h => by simp [lookupStr] at h
  | p :: rest, h => by
    by_cases hp : p.1 = k
    · simp [lookupStr_cons, hp]
    · simp only [List.map_cons, if_neg hp]
      rw [lookupStr_cons] at h ⊢
      rw [if_neg hp] at h ⊢
      exact lookupStr_map_overwrite k v rest h

theorem lookupStr_map_overwrite_ne {V : Type} (k n : String) (v : V) (hn : n ≠ k) :
    ∀ acc : List (String × V),
      lookupStr (acc.map fun p => if p.1 = k then (k, v) else p) n = lookupStr acc n
  | [] => rfl
  | p :: rest => by
    by_cases hp : p.1 = k
    · simp only [List.map_cons, if_pos hp, lookupStr_cons]
      rw [if_neg (show ¬((k, v).1 = n) from fun h => hn h.symm),
          if_neg (show ¬(p.1 = n) from by rw [hp]; exact fun h => hn h.symm)]
      exact lookupStr_map_overwrite_ne k n v hn rest
    · simp only [List.map_cons, if_neg hp, lookupStr_cons]
      by_cases hpn : p.1 = n
      · rw [if_pos hpn, if_pos hpn]
      · rw [if_neg hpn, if_neg hpn]
        exact lookupStr_map_overwrite_ne k n v hn rest

theorem lookupStr_jsObjInsert_self {V : Type} (acc : List (String × V)) (k : String) (v : V) :
    lookupStr (jsObjInsert acc k v) k = some v := by
  rw [jsObjInsert]
  by_cases hs : (lookupStr acc k).isSome = true
  · rw [if_pos hs]
    exact lookupStr_map_overwrite k v acc hs
  · rw [if_neg hs]
    rw [lookupStr_append_full]
    rw [show lookupStr acc k = none from by
      cases hl : lookupStr acc k with
      | none => rfl
      | some x => exact absurd (by rw [hl]; rfl) hs]
    simp [lookupStr_cons]

theorem lookupStr_jsObjInsert_ne {V : Type} (acc : List (String × V)) (k n : String) (v : V)
    (hn : n ≠ k) : lookupStr (jsObjInsert acc k v) n = lookupStr acc n := by
  rw [jsObjInsert]
  by_cases hs : (lookupStr acc k).isSome = true
  · rw [if_pos hs]
    exact lookupStr_map_overwrite_ne k n v hn acc
  · rw [if_neg hs, lookupStr_append_full]
    cases hx : lookupStr acc n with
    | some x => rfl
    | none => exact lookupStr_singleton_ne k n v (fun h => hn h.symm)

/-- C5: on submit, every captured input field is resubmitted with its original
value except `username` and `password`, which are overwritten with the
credentials; the spec's fixture `csrf_token=abc123, username=, password=`
with credentials `user1`/`pass1` yields exactly the URL-encoded body
`csrf_token=abc123&username=user1&password=pass1`. -/
theorem C5_submit_fields (inputs : List FormInput) (config : TripItConfig) :
    lookupStr (buildSubmitData inputs config) "username" = some config.username
    ∧ lookupStr (buildSubmitData inputs config) "password" = some config.password
    ∧ (∀ n, n ≠ "username" → n ≠ "password" →
        lookupStr (buildSubmitData inputs config) n = lookupStr (collectInputs inputs) n)
    ∧ buildSubmitData
        [⟨some "csrf_token", some "abc123"⟩, ⟨some "username", some ""⟩,
         ⟨some "password", some ""⟩] ⟨"cid", "csec", "user1", "pass1"⟩
      = [("csrf_token", "abc123"), ("username", "user1"), ("password", "pass1")]
    ∧ formUrlEncode (buildSubmitData
        [⟨some "csrf_token", some "abc123"⟩, ⟨some "username", some ""⟩,
         ⟨some "password", some ""⟩] ⟨"cid", "csec", "user1", "pass1"⟩)
      = "csrf_token=abc123&username=user1&password=pass1" := by
  refine ⟨?_, ?_, ?_, by decide, by decide⟩
  · rw [buildSubmitData, lookupStr_jsObjInsert_ne _ _ _ _ (by decide)]
    exact lookupStr_jsObjInsert_self _ _ _
  · exact lookupStr_jsObjInsert_self _ _ _
  · intro n hu hp
    rw [buildSubmitData, lookupStr_jsObjInsert_ne _ _ _ _ hp,
        lookupStr_jsObjInsert_ne _ _ _ _ hu]

theorem C5_submit_fields_witness :
    lookupStr
      (buildSubmitData
        [⟨some "csrf_token", some "abc123"⟩, ⟨some "username", some ""⟩,
         ⟨some "password", some ""⟩] ⟨"cid", "csec", "user1", "pass1"⟩)
      "csrf_token" = some "abc123" := by
  have h := C5_submit_fields
    [⟨some "csrf_token", some "abc123"⟩, ⟨some "username", some ""⟩,
     ⟨some "password", some ""⟩] ⟨"cid", "csec", "user1", "pass1"⟩
  rw [h.2.2.1 "csrf_token" (by decide) (by decide)]
  decide

/-! ### Lemmas: one step of the redirect loop, and trace bookkeeping -/

theorem bool_eq_false_of_not_true {b : Bool} (h : ¬(b = true)) : b = false := by
  cases hb : b with
  | true => exact absurd hb h
  | false => rfl

/-- A non-falsy nullable string is a `some` of a nonempty string. -/
theorem location_of_not_falsy (o : Option String) (h : jsFalsyStr o = false) :
    ∃ loc, o = some loc ∧ loc ≠ "" := by
  cases o with
  | none => exact absurd h (by decide)
  | some s =>
    refine ⟨s, rfl, fun he => ?_⟩
    rw [he] at h
    exact absurd h (by decide)

theorem followRedirectsGo_step_redirect (pages : String → Page) (n : Nat) (url loc : String)
    (hst : (pages url).status = 302 ∨ (pages url).status = 303)
    (hl : (pages url).location = some loc) (hne : loc ≠ "") (t : Trace) :
    followRedirectsGo pages (n + 1) url t
      = followRedirectsGo pages n (resolveUrl loc url) (addCall t (NetCall.get url)) := by
  have hfalsy : jsFalsyStr (pages url).location = false := by
    rw [hl]
    show (loc == "") = false
    exact beq_eq_false_iff_ne.mpr hne
  simp only [followRedirectsGo, M.bind, M.call]
  rw [if_pos hst, if_neg (by rw [hfalsy]; exact Bool.false_ne_true), hl]
  rfl

theorem followRedirectsGo_step_final (pages : String → Page) (n : Nat) (url : String)
    (hst : ¬((pages url).status = 302 ∨ (pages url).status = 303)) (t : Trace) :
    followRedirectsGo pages (n + 1) url t
      = (if hasFormInput (pages url) "username" = false
            ∨ hasFormInput (pages url) "password" = false then
           (Except.error "Login form not found", addCall t (NetCall.get url))
         else
           (Except.ok (pages url, url), addCall t (NetCall.get url))) := by
  simp only [followRedirectsGo, M.bind, M.call]
  rw [if_neg hst]
  by_cases hform : hasFormInput (pages url) "username" = false
      ∨ hasFormInput (pages url) "password" = false
  · rw [if_pos hform, if_pos hform]
    rfl
  · rw [if_neg hform, if_neg hform]
    rfl

theorem followRedirectsGo_step_no_location (pages : String → Page) (n : Nat) (url : String)
    (hst : (pages url).status = 302 ∨ (pages url).status = 303)
    (hl : jsFalsyStr (pages url).location = true) (t : Trace) :
    followRedirectsGo pages (n + 1) url t
      = (Except.error "Redirect without location header", addCall t (NetCall.get url)) := by
  simp only [followRedirectsGo, M.bind, M.call]
  rw [if_pos hst, if_pos hl]
  rfl

theorem filter_tokenPost_get (calls : List NetCall) (u : String) :
    (calls ++ [NetCall.get u]).filter isTokenPost = calls.filter isTokenPost := by
  rw [List.filter_append]
  simp [isTokenPost]

theorem filter_tokenPost_post (calls : List NetCall) (u b : String) :
    (calls ++ [NetCall.post u b]).filter isTokenPost = calls.filter isTokenPost := by
  rw [List.filter_append]
  simp [isTokenPost]

theorem followRedirectsGo_trace (pages : String → Page) :
    ∀ (n : Nat) (url : String) (t : Trace),
      (followRedirectsGo pages n url t).2.writes = t.writes
      ∧ (followRedirectsGo pages n url t).2.calls.filter isTokenPost
          = t.calls.filter isTokenPost
  | 0, url, t => ⟨rfl, rfl⟩
  | n + 1, url, t => by
    by_cases hst : (pages url).status = 302 ∨ (pages url).status = 303
    · by_cases hl : jsFalsyStr (pages url).location = true
      · rw [followRedirectsGo_step_no_location pages n url hst hl t]
        exact ⟨rfl, filter_tokenPost_get t.calls url⟩
      · obtain ⟨loc, hsome, hne⟩ :=
          location_of_not_falsy (pages url).location (bool_eq_false_of_not_true hl)
        rw [followRedirectsGo_step_redirect pages n url loc hst hsome hne t]
        have ih := followRedirectsGo_trace pages n (resolveUrl loc url) (addCall t (NetCall.get url))
        exact ⟨ih.1, ih.2.trans (filter_tokenPost_get t.calls url)⟩
    · rw [followRedirectsGo_step_final pages n url hst t]
      by_cases hform : hasFormInput (pages url) "username" = false
          ∨ hasFormInput (pages url) "password" = false
      · rw [if_pos hform]
        exact ⟨rfl, filter_tokenPost_get t.calls url⟩
      · rw [if_neg hform]
        exact ⟨rfl, filter_tokenPost_get t.calls url⟩

theorem submitLogin_no_action (env : AuthEnv) (config : TripItConfig) (page : Page)
    (fa : String) (t : Trace) (hf : jsFalsyStr page.formAction = true) :
    submitLogin env config page fa t = (Except.error "No form action URL found", t) := by
  rw [submitLogin, if_pos hf]
  rfl

theorem submitLogin_trace_eq (env : AuthEnv) (config : TripItConfig) (page : Page)
    (fa : String) (t : Trace) (hf : jsFalsyStr page.formAction = false) :
    (submitLogin env config page fa t).2
      = addCall t (NetCall.post (resolveUrl (page.formAction.getD "") fa)
          (formUrlEncode (buildSubmitData page.inputs config))) := by
  rw [submitLogin, if_neg (by rw [hf]; exact Bool.false_ne_true)]
  simp only [M.bind, M.call]
  repeat'
    first
      | rfl
      | split
  all_goals
    cases hx : metaUrlOf env.loginResponse.metaContent <;> rfl

theorem submitLogin_trace (env : AuthEnv) (config : TripItConfig) (page : Page)
    (fa : String) (t : Trace) :
    (submitLogin env config page fa t).2.writes = t.writes
    ∧ (submitLogin env config page fa t).2.calls.filter isTokenPost
        = t.calls.filter isTokenPost := by
  by_cases hf : jsFalsyStr page.formAction = true
  · rw [submitLogin_no_action env config page fa t hf]
    exact ⟨rfl, rfl⟩
  · have hf2 : jsFalsyStr page.formAction = false := by
      cases hb : jsFalsyStr page.formAction with
      | true => exact absurd hb hf
      | false => rfl
    rw [submitLogin_trace_eq env config page fa t hf2]
    exact ⟨rfl, filter_tokenPost_post t.calls _ _⟩

/-! ### C9: the redirect loop is bounded -/

theorem followRedirectsGo_all_redirect (pages : String → Page)
    (hp : ∀ u, ((pages u).status = 302 ∨ (pages u).status = 303)
        ∧ jsFalsyStr (pages u).location = false) :
    ∀ (n : Nat) (url : String) (t : Trace),
      (followRedirectsGo pages n url t).1
          = Except.error "Too many redirects while getting login form"
      ∧ ∃ gets : List String,
          (followRedirectsGo pages n url t).2
            = { calls := t.calls ++ gets.map NetCall.get, writes := t.writes }
          ∧ gets.length = n
  | 0, url, t => by
    refine ⟨rfl, [], ?_, rfl⟩
    show t = { calls := t.calls ++ [], writes := t.writes }
    simp
  | n + 1, url, t => by
    obtain ⟨hst, hloc⟩ := hp url
    obtain ⟨loc, hl, hne⟩ := location_of_not_falsy (pages url).location hloc
    rw [followRedirectsGo_step_redirect pages n url loc hst hl hne t]
    obtain ⟨herr, gets, htr, hlen⟩ :=
      followRedirectsGo_all_redirect pages hp n (resolveUrl loc url) (addCall t (NetCall.get url))
    refine ⟨herr, url :: gets, ?_, by simp [hlen]⟩
    rw [htr]
    show ({ calls := (t.calls ++ [NetCall.get url]) ++ gets.map NetCall.get,
            writes := t.writes } : Trace) = _
    rw [List.append_assoc]
    rfl

/-- C9: when every response is a 302/303 redirect carrying a non-falsy
`Location` header (a redirect to a new location; an absent or empty header is
a different, immediate failure), `followRedirects` makes exactly 5 GET
requests (the configured hop limit), then fails with the "too many redirects"
error; it never loops unboundedly and it issues no other kind of request. -/
theorem C9_redirect_bound (pages : String → Page) (url : String)
    (hp : ∀ u, ((pages u).status = 302 ∨ (pages u).status = 303)
        ∧ jsFalsyStr (pages u).location = false) :
    (followRedirects pages url ⟨[], []⟩).1
        = Except.error "Too many redirects while getting login form"
    ∧ (followRedirects pages url ⟨[], []⟩).2.calls.length = 5
    ∧ (∀ c ∈ (followRedirects pages url ⟨[], []⟩).2.calls, ∃ u, c = NetCall.get u)
    ∧ (followRedirects pages url ⟨[], []⟩).2.writes = [] := by
  obtain ⟨herr, gets, htr, hlen⟩ := followRedirectsGo_all_redirect pages hp 5 url ⟨[], []⟩
  rw [followRedirects] at *
  refine ⟨herr, ?_, ?_, ?_⟩
  · rw [htr]
    simp [hlen]
  · intro c hc
    rw [htr] at hc
    simp only [List.nil_append] at hc
    obtain ⟨u, _, hu⟩ := List.mem_map.mp hc
    exact ⟨u, hu.symm⟩
  · rw [htr]

def redirectPageW : Page :=
  { status := 302, location := some "https://www.tripit.com/next", inputs := [],
    formAction := none, errorText := "", metaContent := none, scriptRedirect := none }

theorem C9_redirect_bound_witness :
    (followRedirects (fun _ => redirectPageW) "https://www.tripit.com/a" ⟨[], []⟩).1
        = Except.error "Too many redirects while getting login form"
    ∧ (followRedirects (fun _ => redirectPageW) "https://www.tripit.com/a" ⟨[], []⟩).2.calls.length
        = 5 := by
  have h := C9_redirect_bound (fun _ => redirectPageW) "https://www.tripit.com/a"
    (fun _ => ⟨Or.inl rfl, rfl⟩)
  exact ⟨h.1, h.2.1⟩

/-! ### C4: which statuses are followed -/

def page301 : Page :=
  { status := 301, location := some "https://www.tripit.com/next", inputs := [],
    formAction := none, errorText := "", metaContent := none, scriptRedirect := none }

/-- C4 counterexample: a 301 response carrying a `Location` header is a 3xx
redirect, yet the resolver does not follow it — it makes exactly one request
and fails parsing the body as the login page, contradicting the claim that
every 3xx redirect status is followed. -/
theorem C4_counterexample :
    (300 ≤ page301.status ∧ page301.status < 400
      ∧ page301.location = some "https://www.tripit.com/next")
    ∧ followRedirects (fun _ => page301) "https://www.tripit.com/a" ⟨[], []⟩
        = (Except.error "Login form not found",
           { calls := [NetCall.get "https://www.tripit.com/a"], writes := [] }) :=
  ⟨by decide, rfl⟩

/-- C4 amended: while resolving the login form only responses with status
exactly 302 or 303 and a non-falsy `Location` header are followed (resolved
against the current URL and retried); a 302/303 whose `Location` is absent or
empty fails at once with "Redirect without location header"; every other
status — other 3xx codes included — is treated as the final page: the
resolver issues no further request and parses it for the login form. -/
theorem C4_redirect_statuses (pages : String → Page) (url : String) (n : Nat) (t : Trace) :
    (∀ loc, ((pages url).status = 302 ∨ (pages url).status = 303) →
        (pages url).location = some loc → loc ≠ "" →
        followRedirectsGo pages (n + 1) url t
          = followRedirectsGo pages n (resolveUrl loc url) (addCall t (NetCall.get url)))
    ∧ (((pages url).status = 302 ∨ (pages url).status = 303) →
        jsFalsyStr (pages url).location = true →
        followRedirectsGo pages (n + 1) url t
          = (Except.error "Redirect without location header", addCall t (NetCall.get url)))
    ∧ (¬((pages url).status = 302 ∨ (pages url).status = 303) →
        (followRedirectsGo pages (n + 1) url t).2 = addCall t (NetCall.get url)
        ∧ ((hasFormInput (pages url) "username" = false
              ∨ hasFormInput (pages url) "password" = false) →
            (followRedirectsGo pages (n + 1) url t).1 = Except.error "Login form not found")
        ∧ (hasFormInput (pages url) "username" = true →
            hasFormInput (pages url) "password" = true →
            (followRedirectsGo pages (n + 1) url t).1 = Except.ok (pages url, url))) := by
  refine ⟨?_, ?_, ?_⟩
  · intro loc hst hl hne
    exact followRedirectsGo_step_redirect pages n url loc hst hl hne t
  · intro hst hl
    exact followRedirectsGo_step_no_location pages n url hst hl t
  · intro hst
    rw [followRedirectsGo_step_final pages n url hst t]
    by_cases hform : hasFormInput (pages url) "username" = false
        ∨ hasFormInput (pages url) "password" = false
    · rw [if_pos hform]
      refine ⟨rfl, fun _ => rfl, fun hu hp => ?_⟩
      rcases hform with h | h
      · rw [hu] at h
        exact absurd h (by decide)
      · rw [hp] at h
        exact absurd h (by decide)
    · rw [if_neg hform]
      exact ⟨rfl, fun hf => absurd hf hform, fun _ _ => rfl⟩

theorem C4_redirect_statuses_witness :
    followRedirectsGo (fun _ => redirectPageW) 5 "https://www.tripit.com/a" ⟨[], []⟩
      = followRedirectsGo (fun _ => redirectPageW) 4
          (resolveUrl "https://www.tripit.com/next" "https://www.tripit.com/a")
          (addCall ⟨[], []⟩ (NetCall.get "https://www.tripit.com/a")) :=
  (C4_redirect_statuses (fun _ => redirectPageW) "https://www.tripit.com/a" 4 ⟨[], []⟩).1
    "https://www.tripit.com/next" (Or.inl rfl) rfl (by decide)

/-! ### C7: the form action URL -/

def pageNoActionW : Page :=
  { status := 200, location := none,
    inputs := [⟨some "username", some ""⟩, ⟨some "password", some ""⟩],
    formAction := none, errorText := "", metaContent := none, scriptRedirect := none }

/-- C7 counterexample: the login form declares no `action` attribute; the
claim says submission falls back to the page's own URL, but `submitLogin`
fails with "No form action URL found" and issues no POST at all (the trace is
unchanged). -/
theorem C7_counterexample :
    pageNoActionW.formAction = none
    ∧ submitLogin envBaseW cfgW pageNoActionW "https://www.tripit.com/login" ⟨[], []⟩
        = (Except.error "No form action URL found", ⟨[], []⟩) :=
  ⟨rfl, submitLogin_no_action envBaseW cfgW pageNoActionW "https://www.tripit.com/login"
      ⟨[], []⟩ rfl⟩

/-- C7 amended: the form is submitted to the form's `action` attribute
resolved against the URL of the page that served the form; but when the form
declares no action attribute (or an empty one), `submitLogin` fails with
"No form action URL found" instead of falling back to the page URL. -/
theorem C7_form_action (env : AuthEnv) (config : TripItConfig) (page : Page)
    (fa : String) (t : Trace) :
    (∀ a, page.formAction = some a → a ≠ "" →
        (submitLogin env config page fa t).2
          = addCall t (NetCall.post (resolveUrl a fa)
              (formUrlEncode (buildSubmitData page.inputs config))))
    ∧ (jsFalsyStr page.formAction = true →
        submitLogin env config page fa t = (Except.error "No form action URL found", t)) := by
  constructor
  · intro a ha hne
    have hf : jsFalsyStr page.formAction = false := by
      rw [ha]
      show (a == "") = false
      exact beq_eq_false_iff_ne.mpr hne
    have h := submitLogin_trace_eq env config page fa t hf
    rw [ha] at h
    exact h
  · exact submitLogin_no_action env config page fa t

theorem C7_form_action_witness :
    (submitLogin envBaseW cfgW loginFormPageW "https://www.tripit.com/login" ⟨[], []⟩).2
      = addCall ⟨[], []⟩ (NetCall.post (resolveUrl "/login" "https://www.tripit.com/login")
          (formUrlEncode (buildSubmitData loginFormPageW.inputs cfgW))) :=
  (C7_form_action envBaseW cfgW loginFormPageW "https://www.tripit.com/login" ⟨[], []⟩).1
    "/login" rfl (by decide)

/-! ### C2: the token cache fast path -/

/-- C2: with a cached token whose `expiresAt` is strictly in the future,
`authenticate` returns the cached `access_token` unchanged and performs no
network call and no cache write (the trace is untouched); with an expired
cached token (`expiresAt ≤ now`) the run is identical to a run with no cache
at all, i.e. the full login flow. -/
theorem C2_cache_fast_path (env : AuthEnv) (config : TripItConfig) :
    (∀ c, env.cached = some c → c.expiresAt > env.now →
        ∀ t, authenticate env config t = (Except.ok c.access_token, t))
    ∧ (∀ c, env.cached = some c → c.expiresAt ≤ env.now →
        authenticate env config = authenticate { env with cached := none } config)
    ∧ (env.cached = none → authenticate env config = authenticateFull env config) := by
  refine ⟨?_, ?_, ?_⟩
  · intro c hc hlt t
    simp only [authenticate, hc]
    rw [if_pos hlt]
    rfl
  · intro c hc hle
    simp only [authenticate, hc]
    rw [if_neg (not_lt.mpr hle)]
    rfl
  · intro hc
    simp only [authenticate, hc]

def envC2 : AuthEnv :=
  { envBaseW with cached := some ⟨"cachedTok", 3600, "Bearer", "s", 100⟩, now := 50 }

theorem C2_cache_fast_path_witness :
    authenticate envC2 cfgW ⟨[], []⟩ = (Except.ok "cachedTok", ⟨[], []⟩) :=
  (C2_cache_fast_path envC2 cfgW).1 ⟨"cachedTok", 3600, "Bearer", "s", 100⟩ rfl
    (by decide) ⟨[], []⟩

/-! ### Running the full flow up to the redirect validation -/

theorem followRedirects_trace (pages : String → Page) (url : String) (t : Trace) :
    (followRedirects pages url t).2.writes = t.writes
    ∧ (followRedirects pages url t).2.calls.filter isTokenPost
        = t.calls.filter isTokenPost :=
  followRedirectsGo_trace pages 5 url t

theorem M.bind_eq_ok {α β : Type} (x : M α) (f : α → M β) (t t1 : Trace) (a : α)
    (h : x t = (Except.ok a, t1)) : M.bind x f t = f a t1 := by
  simp only [M.bind, h]

theorem M.bind_eq_error {α β : Type} (x : M α) (f : α → M β) (t t1 : Trace) (e : String)
    (h : x t = (Except.error e, t1)) : M.bind x f t = (Except.error e, t1) := by
  simp only [M.bind, h]

theorem authenticateFull_run (env : AuthEnv) (config : TripItConfig) (t0 : Trace)
    (page : Page) (fa : String) (t1 : Trace) (redirectUrl : String) (t2 : Trace)
    (hfr : followRedirects env.pages (authUrlOf env config)
        (addCall t0 (NetCall.get (BASE_URL ++ "/home"))) = (Except.ok (page, fa), t1))
    (hsl : submitLogin env config page fa t1 = (Except.ok redirectUrl, t2)) :
    authenticateFull env config t0 = afterLogin env config redirectUrl t2 := by
  have h1 : authenticateFull env config t0
      = (M.bind (followRedirects env.pages (authUrlOf env config)) fun pr =>
          M.bind (submitLogin env config pr.1 pr.2) fun r =>
          afterLogin env config r) (addCall t0 (NetCall.get (BASE_URL ++ "/home"))) := rfl
  rw [h1, M.bind_eq_ok _ _ _ _ _ hfr]
  show M.bind (submitLogin env config page fa)
      (fun r => afterLogin env config r) t1 = afterLogin env config redirectUrl t2
  rw [M.bind_eq_ok _ _ _ _ _ hsl]

/-! ### C1: the state check fails closed -/

/-- C1: whenever the final redirect URL's `state` query parameter differs in
any way from the state generated for the attempt (including when it is
absent), `authenticate` fails with "OAuth state mismatch" and the token
endpoint is never called (no `tokenPost` appears in the trace). -/
theorem C1_state_mismatch (env : AuthEnv) (config : TripItConfig)
    (page : Page) (fa redirectUrl : String) (t1 t2 : Trace)
    (hc : env.cached = none)
    (hfr : followRedirects env.pages (authUrlOf env config)
        (addCall ⟨[], []⟩ (NetCall.get (BASE_URL ++ "/home"))) = (Except.ok (page, fa), t1))
    (hsl : submitLogin env config page fa t1 = (Except.ok redirectUrl, t2))
    (hstate : searchParamGet (resolveUrl redirectUrl "http://localhost") "state"
        ≠ some (stateOf env)) :
    authenticate env config ⟨[], []⟩ = (Except.error "OAuth state mismatch", t2)
    ∧ t2.calls.filter isTokenPost = [] := by
  constructor
  · have hful : authenticate env config = authenticateFull env config := by
      simp only [authenticate, hc]
    rw [hful,
      authenticateFull_run env config ⟨[], []⟩ page fa t1 redirectUrl t2 hfr hsl]
    simp only [afterLogin]
    rw [if_pos hstate]
    rfl
  · have h1 := followRedirects_trace env.pages (authUrlOf env config)
      (addCall ⟨[], []⟩ (NetCall.get (BASE_URL ++ "/home")))
    rw [hfr] at h1
    have h2 := submitLogin_trace env config page fa t1
    rw [hsl] at h2
    rw [h2.2, h1.2]
    rfl

def envC1 : AuthEnv :=
  { envBaseW with
    loginResponse :=
      { status := 302, location := some "com.test://done?state=BAD&code=abc",
        inputs := [], formAction := none, errorText := "", metaContent := none,
        scriptRedirect := none } }

def t1C1 : Trace :=
  addCall (addCall ⟨[], []⟩ (NetCall.get (BASE_URL ++ "/home")))
    (NetCall.get (authUrlOf envC1 cfgW))

def t2C1 : Trace :=
  addCall t1C1 (NetCall.post (resolveUrl "/login" (authUrlOf envC1 cfgW))
    (formUrlEncode (buildSubmitData loginFormPageW.inputs cfgW)))

theorem C1_state_mismatch_witness :
    authenticate envC1 cfgW ⟨[], []⟩ = (Except.error "OAuth state mismatch", t2C1)
    ∧ t2C1.calls.filter isTokenPost = [] :=
  C1_state_mismatch envC1 cfgW loginFormPageW (authUrlOf envC1 cfgW)
    "com.test://done?state=BAD&code=abc" t1C1 t2C1 rfl rfl rfl (by decide)

/-! ### C6: token exchange failure leaves the cache untouched -/

theorem afterLogin_run (env : AuthEnv) (config : TripItConfig) (redirectUrl : String)
    (t2 : Trace)
    (hstate : searchParamGet (resolveUrl redirectUrl "http://localhost") "state"
        = some (stateOf env))
    (hcode : jsFalsyStr (searchParamGet (resolveUrl redirectUrl "http://localhost") "code")
        = false) :
    afterLogin env config redirectUrl t2
      = (M.bind (exchangeCodeForToken env config
            ((searchParamGet (resolveUrl redirectUrl "http://localhost") "code").getD "")
            (codeVerifierOf env)) fun tokenResponse =>
          if jsFalsyStr tokenResponse.access_token then
            M.throw "No access_token in response"
          else
            M.bind (cacheToken env.now tokenResponse) fun _ =>
            M.pure (tokenResponse.access_token.getD "")) t2 := by
  simp only [afterLogin]
  rw [if_neg (show ¬(searchParamGet (resolveUrl redirectUrl "http://localhost") "state"
      ≠ some (stateOf env)) from fun h => h hstate)]
  rw [if_neg (show ¬(jsFalsyStr (searchParamGet (resolveUrl redirectUrl "http://localhost")
      "code") = true) from by rw [hcode]; exact Bool.false_ne_true)]

theorem exchangeCodeForToken_run_bad (env : AuthEnv) (config : TripItConfig)
    (code cv : String) (t : Trace)
    (hbad : ¬(200 ≤ env.tokenStatus ∧ env.tokenStatus ≤ 299)) :
    exchangeCodeForToken env config code cv t
      = (Except.error
            ("Token exchange failed (" ++ toString env.tokenStatus ++ "): " ++ env.tokenBody),
         addCall t (NetCall.tokenPost (API_BASE_URL ++ "/oauth2/token")
            (tokenRequestBody config code cv))) := by
  simp only [exchangeCodeForToken, M.bind, M.call]
  rw [if_neg hbad]
  rfl

theorem exchangeCodeForToken_run_ok (env : AuthEnv) (config : TripItConfig)
    (code cv : String) (t : Trace)
    (hok : 200 ≤ env.tokenStatus ∧ env.tokenStatus ≤ 299) :
    exchangeCodeForToken env config code cv t
      = (Except.ok env.tokenJson,
         addCall t (NetCall.tokenPost (API_BASE_URL ++ "/oauth2/token")
            (tokenRequestBody config code cv))) := by
  simp only [exchangeCodeForToken, M.bind, M.call]
  rw [if_pos hok]
  rfl

/-- C6: when the flow reaches the token exchange, a non-2xx token endpoint
response makes `authenticate` fail with an error carrying the numeric status
and the response body, and nothing is written to the token cache; a 2xx
response whose `access_token` is missing (or empty) fails with
"No access_token in response", likewise caching nothing. -/
theorem C6_token_exchange_failure (env : AuthEnv) (config : TripItConfig)
    (page : Page) (fa redirectUrl : String) (t1 t2 : Trace)
    (hc : env.cached = none)
    (hfr : followRedirects env.pages (authUrlOf env config)
        (addCall ⟨[], []⟩ (NetCall.get (BASE_URL ++ "/home"))) = (Except.ok (page, fa), t1))
    (hsl : submitLogin env config page fa t1 = (Except.ok redirectUrl, t2))
    (hstate : searchParamGet (resolveUrl redirectUrl "http://localhost") "state"
        = some (stateOf env))
    (hcode : jsFalsyStr (searchParamGet (resolveUrl redirectUrl "http://localhost") "code")
        = false) :
    (¬(200 ≤ env.tokenStatus ∧ env.tokenStatus ≤ 299) →
        (authenticate env config ⟨[], []⟩).1
            = Except.error
                ("Token exchange failed (" ++ toString env.tokenStatus ++ "): " ++ env.tokenBody)
        ∧ (authenticate env config ⟨[], []⟩).2.writes = [])
    ∧ ((200 ≤ env.tokenStatus ∧ env.tokenStatus ≤ 299) →
        jsFalsyStr env.tokenJson.access_token = true →
        (authenticate env config ⟨[], []⟩).1 = Except.error "No access_token in response"
        ∧ (authenticate env config ⟨[], []⟩).2.writes = []) := by
  have hful : authenticate env config = authenticateFull env config := by
    simp only [authenticate, hc]
  have hrun : authenticate env config ⟨[], []⟩ = afterLogin env config redirectUrl t2 := by
    rw [hful]
    exact authenticateFull_run env config ⟨[], []⟩ page fa t1 redirectUrl t2 hfr hsl
  have hw2 : t2.writes = [] := by
    have h1 := followRedirects_trace env.pages (authUrlOf env config)
      (addCall ⟨[], []⟩ (NetCall.get (BASE_URL ++ "/home")))
    rw [hfr] at h1
    have h2 := submitLogin_trace env config page fa t1
    rw [hsl] at h2
    rw [h2.1, h1.1]
    rfl
  have hal := afterLogin_run env config redirectUrl t2 hstate hcode
  constructor
  · intro hbad
    rw [hrun, hal, M.bind_eq_error _ _ _ _ _
      (exchangeCodeForToken_run_bad env config _ _ t2 hbad)]
    exact ⟨rfl, hw2⟩
  · intro hok hfalsy
    rw [hrun, hal, M.bind_eq_ok _ _ _ _ _
      (exchangeCodeForToken_run_ok env config _ _ t2 hok)]
    constructor
    · simp only [hfalsy, if_true, M.throw]
    · simp only [hfalsy, if_true, M.throw]
      exact hw2

def envC6 : AuthEnv :=
  { envBaseW with
    tokenStatus := 400,
    tokenBody := "\x7b\"error\":\"invalid_grant\"\x7d" }

def t1C6 : Trace :=
  addCall (addCall ⟨[], []⟩ (NetCall.get (BASE_URL ++ "/home")))
    (NetCall.get (authUrlOf envC6 cfgW))

def t2C6 : Trace :=
  addCall t1C6 (NetCall.post (resolveUrl "/login" (authUrlOf envC6 cfgW))
    (formUrlEncode (buildSubmitData loginFormPageW.inputs cfgW)))

theorem C6_token_exchange_failure_witness :
    (authenticate envC6 cfgW ⟨[], []⟩).1
        = Except.error "Token exchange failed (400): \x7b\"error\":\"invalid_grant\"\x7d"
    ∧ (authenticate envC6 cfgW ⟨[], []⟩).2.writes = [] := by
  have h := (C6_token_exchange_failure envC6 cfgW loginFormPageW (authUrlOf envC6 cfgW)
      "com.test://done?state=&code=abc" t1C6 t2C6 rfl rfl rfl (by decide) (by decide)).1
    (by decide)
  exact ⟨h.1.trans (congrArg Except.error (by decide)), h.2⟩

/-! ### C8: every cache write carries the 30-second safety margin -/

/-- Every token the computation writes beyond those already in the starting
trace satisfies `expiresAt = now + (expires_in - 30) * 1000`. -/
def WritesOK {α : Type} (now : Int) (x : M α) : Prop :=
  ∀ t w, w ∈ (x t).2.writes →
    w ∈ t.writes ∨ w.expiresAt = now + (w.expires_in - 30) * 1000

theorem writesOK_of_preserve {α : Type} (now : Int) (x : M α)
    (h : ∀ t, (x t).2.writes = t.writes) : WritesOK now x := by
  intro t w hw
  rw [h t] at hw
  exact Or.inl hw

theorem writesOK_bind {α β : Type} (now : Int) (x : M α) (f : α → M β)
    (hx : WritesOK now x) (hf : ∀ a, WritesOK now (f a)) : WritesOK now (M.bind x f) := by
  intro t w hw
  rcases hxt : x t with ⟨r, t1⟩
  cases r with
  | ok a =>
    rw [M.bind_eq_ok x f t t1 a hxt] at hw
    rcases hf a t1 w hw with hmem | hgood
    · have := hx t w (by rw [hxt]; exact hmem)
      exact this
    · exact Or.inr hgood
  | error e =>
    rw [M.bind_eq_error x f t t1 e hxt] at hw
    exact hx t w (by rw [hxt]; exact hw)

theorem writesOK_afterLogin (env : AuthEnv) (config : TripItConfig) (redirectUrl : String) :
    WritesOK env.now (afterLogin env config redirectUrl) := by
  intro t w hw
  by_cases h1 : searchParamGet (resolveUrl redirectUrl "http://localhost") "state"
      ≠ some (stateOf env)
  · have heq : afterLogin env config redirectUrl t
        = (Except.error "OAuth state mismatch", t) := by
      simp only [afterLogin]
      rw [if_pos h1]
      rfl
    rw [heq] at hw
    exact Or.inl hw
  · by_cases h2 : jsFalsyStr (searchParamGet (resolveUrl redirectUrl "http://localhost")
        "code") = true
    · have heq : afterLogin env config redirectUrl t
          = (Except.error "Authorization code not found in redirect", t) := by
        simp only [afterLogin]
        rw [if_neg h1, if_pos h2]
        rfl
      rw [heq] at hw
      exact Or.inl hw
    · have h2f : jsFalsyStr (searchParamGet (resolveUrl redirectUrl "http://localhost")
          "code") = false := by
        cases hb : jsFalsyStr (searchParamGet (resolveUrl redirectUrl "http://localhost")
            "code") with
        | true => exact absurd hb h2
        | false => rfl
      have hstate : searchParamGet (resolveUrl redirectUrl "http://localhost") "state"
          = some (stateOf env) := not_not.mp h1
      rw [afterLogin_run env config redirectUrl t hstate h2f] at hw
      revert hw
      apply writesOK_bind env.now _ _ ?_ ?_ t w
      · apply writesOK_of_preserve
        intro t3
        by_cases hok : 200 ≤ env.tokenStatus ∧ env.tokenStatus ≤ 299
        · rw [exchangeCodeForToken_run_ok env config _ _ t3 hok]
          rfl
        · rw [exchangeCodeForToken_run_bad env config _ _ t3 hok]
          rfl
      · intro tokenResponse
        by_cases hft : jsFalsyStr tokenResponse.access_token = true
        · intro t3 w3 hw3
          rw [if_pos hft] at hw3
          exact Or.inl hw3
        · intro t3 w3 hw3
          rw [if_neg hft] at hw3
          have heq : (M.bind (cacheToken env.now tokenResponse) fun _ =>
              M.pure (tokenResponse.access_token.getD "")) t3
              = (Except.ok (tokenResponse.access_token.getD ""),
                 addWrite t3 (mkCachedToken env.now tokenResponse)) := rfl
          rw [heq] at hw3
          rcases List.mem_append.mp hw3 with hmem | hone
          · exact Or.inl hmem
          · rw [List.mem_singleton.mp hone]
            exact Or.inr rfl

theorem writesOK_authenticateFull (env : AuthEnv) (config : TripItConfig) :
    WritesOK env.now (authenticateFull env config) := by
  rw [authenticateFull]
  apply writesOK_bind
  · exact writesOK_of_preserve _ _ (fun t => rfl)
  intro u
  apply writesOK_bind
  · exact writesOK_of_preserve _ _
      (fun t => (followRedirects_trace env.pages (authUrlOf env config) t).1)
  intro pr
  apply writesOK_bind
  · exact writesOK_of_preserve _ _ (fun t => (submitLogin_trace env config pr.1 pr.2 t).1)
  intro r
  exact writesOK_afterLogin env config r

/-- C8: every token `authenticate` writes to the cache (beyond those already
recorded before the run) has
`expiresAt = now + (expires_in - 30) * 1000` — epoch milliseconds with a
30-second safety margin before the server-side expiry. -/
theorem C8_cache_expiry (env : AuthEnv) (config : TripItConfig) :
    ∀ t w, w ∈ (authenticate env config t).2.writes →
      w ∈ t.writes ∨ w.expiresAt = env.now + (w.expires_in - 30) * 1000 := by
  have hfull := writesOK_authenticateFull env config
  cases hc : env.cached with
  | none =>
    have heq : authenticate env config = authenticateFull env config := by
      simp only [authenticate, hc]
    rw [heq]
    exact hfull
  | some c =>
    by_cases hlt : c.expiresAt > env.now
    · have heq : ∀ t, authenticate env config t = (Except.ok c.access_token, t) := by
        intro t
        simp only [authenticate, hc]
        rw [if_pos hlt]
        rfl
      intro t w hw
      rw [heq t] at hw
      exact Or.inl hw
    · have heq : authenticate env config = authenticateFull env config := by
        simp only [authenticate, hc]
        rw [if_neg hlt]
      rw [heq]
      exact hfull

theorem C8_cache_expiry_witness :
    mkCachedToken 0 envBaseW.tokenJson ∈ (authenticate envBaseW cfgW ⟨[], []⟩).2.writes
    ∧ (mkCachedToken 0 envBaseW.tokenJson).expiresAt
        = envBaseW.now + ((mkCachedToken 0 envBaseW.tokenJson).expires_in - 30) * 1000 := by
  have hmem : mkCachedToken 0 envBaseW.tokenJson
      ∈ (authenticate envBaseW cfgW ⟨[], []⟩).2.writes := by decide
  have h := C8_cache_expiry envBaseW cfgW ⟨[], []⟩ (mkCachedToken 0 envBaseW.tokenJson) hmem
  exact ⟨hmem, h.resolve_left (by decide)⟩
